import Mathlib

/-!
# Verification of the MERN blog backend core

Shallow embedding of the blog/user route handlers of the Mern-bolg backend
(`routes/blogs.js`, `routes/users.js`).  The document store is a `List Blog`
(resp. `List User`); each handler is a function from the store and the request
data to a response value together with the store after the request.  Mongo
ObjectIds and timestamps are modelled as `Nat`.
-/

/-- A comment embedded in a blog document (`user`, `content`, timestamp). -/
structure Comment where
  user : Nat
  content : String
  createdAt : Nat
deriving Repr, DecidableEq

/-- A blog document.  Fields are the ones the route handlers read or write:
`title`, `content`, `tags`, `featuredImage`, `published`, `author`, `views`,
`likes`, `comments`, `excerpt` (projected by the profile endpoint), and the
creation timestamp. `likes` holds user ids. -/
structure Blog where
  id : Nat
  title : String
  content : String
  tags : List String
  featuredImage : String
  published : Bool
  author : Nat
  views : Nat
  likes : List Nat
  comments : List Comment
  excerpt : String
  createdAt : Nat
deriving Repr, DecidableEq

/-- A user document (only the fields the verified endpoints touch). -/
structure User where
  id : Nat
  username : String
deriving Repr, DecidableEq

/-- Model of `Blog.findById`: first document whose id matches. -/
def findBlog (db : List Blog) (i : Nat) : Option Blog :=
  db.find? (fun b => b.id == i)

/-- Model of `blog.save()` after mutating a fetched document: replace the (first)
document with that id by the new value. -/
def saveBlog : List Blog → Nat → Blog → List Blog
  | [], _, _ => []
  | b :: rest, i, nb => if b.id == i then nb :: rest else b :: saveBlog rest i nb

/-- Model of `Blog.findByIdAndDelete`: remove the (first) document with that id. -/
def deleteById : List Blog → Nat → List Blog
  | [], _ => []
  | b :: rest, i => if b.id == i then rest else b :: deleteById rest i

/-! ## Case-insensitive substring matching

`new RegExp(s, 'i')` applied to a literal search string tests whether `s`
occurs in the subject, ignoring case. -/

/-- Test `listStartsWith pat l`: the characters `pat` begin the list `l`. -/
def listStartsWith : List Char → List Char → Bool
  | [], _ => true
  | _ :: _, [] => false
  | c :: cs, d :: ds => c == d && listStartsWith cs ds

/-- Test `hasSubstr hay pat`: the character list `pat` occurs contiguously in
`hay`. -/
def hasSubstr : List Char → List Char → Bool
  | [], pat => pat.isEmpty
  | c :: rest, pat => listStartsWith pat (c :: rest) || hasSubstr rest pat

/-- Model of `new RegExp(pat, 'i').test(hay)` for a literal pattern: case-insensitive
substring containment (both sides compared lower-cased). -/
def regexMatchI (pat hay : String) : Bool :=
  hasSubstr (hay.data.map Char.toLower) (pat.data.map Char.toLower)

/-! ## Public listing (`GET /api/blogs`) -/

/-- The Mongo query built by `GET /api/blogs`, as a predicate on documents:

```
let query = { published: true };
if (search) query.$or = [ title ~ /search/i, content ~ /search/i,
                          tags ∋ /search/i ];
if (tag) query.tags = { $in: [ /tag/i ] };
if (author) query.author = author;
```

`search`/`tag` default to `''` (absent); the author filter is an optional
id. -/
def publicQueryMatches (search tag : String) (author? : Option Nat) (b : Blog) : Bool :=
  b.published
    && (search == ""
        || (regexMatchI search b.title || regexMatchI search b.content
            || b.tags.any (fun t => regexMatchI search t)))
    && (tag == "" || b.tags.any (fun t => regexMatchI tag t))
    && (match author? with
        | none => true
        | some a => b.author == a)

/-- Comparison used by `.sort({ createdAt: -1 })`: newest first. -/
def byCreatedDesc (a b : Blog) : Prop := b.createdAt ≤ a.createdAt

instance : DecidableRel byCreatedDesc := fun a b => Nat.decLe b.createdAt a.createdAt

instance : IsTotal Blog byCreatedDesc := ⟨fun a b => Nat.le_total b.createdAt a.createdAt⟩

instance : IsTrans Blog byCreatedDesc := ⟨fun _ _ _ hab hbc => Nat.le_trans hbc hab⟩

/-- Sort documents descending by creation time. -/
def sortByCreatedDesc (l : List Blog) : List Blog :=
  l.insertionSort byCreatedDesc

/-- The `pagination` object of the list responses. -/
structure Pagination where
  currentPage : Nat
  totalPages : Nat
  totalBlogs : Nat
  hasNext : Bool
  hasPrev : Bool
deriving Repr, DecidableEq

/-- A list response: one page of documents plus the pagination object. -/
structure ListResponse where
  blogs : List Blog
  pagination : Pagination
deriving Repr, DecidableEq

/-- The pagination object: `totalPages = Math.ceil(total / limit)`,
`hasNext = page < totalPages`, `hasPrev = page > 1`. -/
def mkPagination (page limit total : Nat) : Pagination :=
  { currentPage := page
    totalPages := total ⌈/⌉ limit
    totalBlogs := total
    hasNext := decide (page < total ⌈/⌉ limit)
    hasPrev := decide (1 < page) }

/-- Handler of `GET /api/blogs`: filter by the public query, sort newest first, skip
`(page-1)*limit`, return `limit` documents, and count the matching documents
with the identical filter for the pagination object. -/
def getBlogs (db : List Blog) (page limit : Nat) (search tag : String)
    (author? : Option Nat) : ListResponse :=
  let skip := (page - 1) * limit
  let matching := db.filter (publicQueryMatches search tag author?)
  let total := matching.length
  { blogs := ((sortByCreatedDesc matching).drop skip).take limit
    pagination := mkPagination page limit total }

/-! ## Single blog (`GET /api/blogs/:id`) -/

/-- Handler of `GET /api/blogs/:id`: 404 when absent; otherwise increment `views` by 1,
persist, and return the document. -/
def getBlog (db : List Blog) (i : Nat) : Option Blog × List Blog :=
  match findBlog db i with
  | none => (none, db)
  | some b =>
    let nb := { b with views := b.views + 1 }
    (some nb, saveBlog db i nb)

/-! ## Create (`POST /api/blogs`) -/

/-- The request body of `POST /api/blogs`; `none` models an absent field. -/
structure CreateBody where
  title : Option String := none
  content : Option String := none
  tags : Option (List String) := none
  featuredImage : Option String := none
  published : Option Bool := none
deriving Repr, DecidableEq

/-- The validator chain of `POST /api/blogs`: `title` required, non-empty,
at most 200 characters; `content` required, non-empty. -/
def validCreate (body : CreateBody) : Bool :=
  (match body.title with
   | none => false
   | some t => !(t == "") && t.length ≤ 200)
  && (match body.content with
      | none => false
      | some c => !(c == ""))

/-- Result of `POST /api/blogs`: 400 on validation failure, else 201 with the
created document. -/
inductive CreateResult where
  | validationFailed
  | created (blog : Blog)
deriving Repr, DecidableEq

/-- Handler of `POST /api/blogs`: validate, then build the document with
`tags: tags || []`, `featuredImage: featuredImage || ''`,
`published: published || false`, `author: req.user._id`, and insert it.
`newId` and `now` stand for the store-generated id and timestamp; `views`,
`likes` and `comments` take their schema defaults. -/
def createBlog (db : List Blog) (requester newId now : Nat) (body : CreateBody) :
    CreateResult × List Blog :=
  if !validCreate body then (.validationFailed, db)
  else
    let blog : Blog :=
      { id := newId
        title := body.title.getD ""
        content := body.content.getD ""
        tags := body.tags.getD []
        featuredImage := body.featuredImage.getD ""
        published := body.published.getD false
        author := requester
        views := 0
        likes := []
        comments := []
        excerpt := ""
        createdAt := now }
    (.created blog, db ++ [blog])

/-! ## Update (`PUT /api/blogs/:id`) -/

/-- The request body of `PUT /api/blogs/:id`; `none` models an absent field
(`undefined`). -/
structure UpdateBody where
  title : Option String := none
  content : Option String := none
  tags : Option (List String) := none
  featuredImage : Option String := none
  published : Option Bool := none
deriving Repr, DecidableEq

/-- The validator chain of `PUT /api/blogs/:id`: `title` optional, at most
200 characters; `content` optional but non-empty when present. -/
def validUpdate (body : UpdateBody) : Bool :=
  (match body.title with
   | none => true
   | some t => t.length ≤ 200)
  && (match body.content with
      | none => true
      | some c => !(c == ""))

/-- The field application of `PUT /api/blogs/:id`:
`if (x !== undefined) blog.x = x` for each of the five updatable fields. -/
def applyUpdate (b : Blog) (body : UpdateBody) : Blog :=
  { b with
    title := body.title.getD b.title
    content := body.content.getD b.content
    tags := body.tags.getD b.tags
    featuredImage := body.featuredImage.getD b.featuredImage
    published := body.published.getD b.published }

/-- Result of `PUT /api/blogs/:id`: 400, 404, 403, or 200 with the updated
document. -/
inductive UpdateResult where
  | validationFailed
  | notFound
  | forbidden
  | updated (blog : Blog)
deriving Repr, DecidableEq

/-- Handler of `PUT /api/blogs/:id`: validate, fetch (404 when absent), check
`blog.author == req.user._id` (403 otherwise), apply the present fields and
persist. -/
def updateBlog (db : List Blog) (requester i : Nat) (body : UpdateBody) :
    UpdateResult × List Blog :=
  if !validUpdate body then (.validationFailed, db)
  else
    match findBlog db i with
    | none => (.notFound, db)
    | some b =>
      if b.author != requester then (.forbidden, db)
      else
        let nb := applyUpdate b body
        (.updated nb, saveBlog db i nb)

/-! ## Delete (`DELETE /api/blogs/:id`) -/

/-- Result of `DELETE /api/blogs/:id`: 404, 403, or 200. -/
inductive DeleteResult where
  | notFound
  | forbidden
  | deleted
deriving Repr, DecidableEq

/-- Handler of `DELETE /api/blogs/:id`: fetch (404 when absent), check ownership (403
otherwise), then remove the document. -/
def deleteBlog (db : List Blog) (requester i : Nat) : DeleteResult × List Blog :=
  match findBlog db i with
  | none => (.notFound, db)
  | some b =>
    if b.author != requester then (.forbidden, db)
    else (.deleted, deleteById db i)

/-! ## Like toggle (`POST /api/blogs/:id/like`) -/

/-- The JSON body returned by the like toggle: the new like count and the
requester's new membership. -/
structure LikeResponse where
  likes : Nat
  isLiked : Bool
deriving Repr, DecidableEq

/-- The new `likes` array: if the requester is present remove every
occurrence (`filter`), else `push` the requester at the end. -/
def toggledLikes (likes : List Nat) (u : Nat) : List Nat :=
  if likes.contains u then likes.filter (fun l => l != u)
  else likes ++ [u]

/-- Handler of `POST /api/blogs/:id/like`: 404 when absent; otherwise toggle the
requester's membership in `likes`, persist, and report the new count and
membership. -/
def toggleLike (db : List Blog) (requester i : Nat) : Option LikeResponse × List Blog :=
  match findBlog db i with
  | none => (none, db)
  | some b =>
    let isLiked := b.likes.contains requester
    let newLikes := toggledLikes b.likes requester
    let nb := { b with likes := newLikes }
    (some { likes := newLikes.length, isLiked := !isLiked }, saveBlog db i nb)

/-! ## My blogs (`GET /api/users/my-blogs`) -/

/-- The Mongo query built by `GET /api/users/my-blogs`:

```
let query = { author: req.user._id };
if (published !== undefined) query.published = published === 'true';
```
-/
def myBlogsMatches (requester : Nat) (published? : Option String) (b : Blog) : Bool :=
  b.author == requester
    && (match published? with
        | none => true
        | some s => b.published == (s == "true"))

/-- Handler of `GET /api/users/my-blogs`: same sort and pagination as the public list,
over the requester's own documents. -/
def getMyBlogs (db : List Blog) (requester page limit : Nat)
    (published? : Option String) : ListResponse :=
  let skip := (page - 1) * limit
  let matching := db.filter (myBlogsMatches requester published?)
  let total := matching.length
  { blogs := ((sortByCreatedDesc matching).drop skip).take limit
    pagination := mkPagination page limit total }

/-! ## Public profile (`GET /api/users/profile/:id`) -/

/-- The projection `select('title excerpt createdAt views likes')` of the
profile endpoint: a summary without the `content` field. -/
structure BlogSummary where
  title : String
  excerpt : String
  createdAt : Nat
  views : Nat
  likes : List Nat
deriving Repr, DecidableEq

/-- Project a blog document to its profile summary. -/
def toSummary (b : Blog) : BlogSummary :=
  { title := b.title
    excerpt := b.excerpt
    createdAt := b.createdAt
    views := b.views
    likes := b.likes }

/-- Handler of `GET /api/users/profile/:id`: 404 when the user is absent; otherwise the
user together with their published blogs, newest first, at most 10, each
projected to a summary. -/
def getProfile (users : List User) (db : List Blog) (i : Nat) :
    Option (User × List BlogSummary) :=
  match users.find? (fun u => u.id == i) with
  | none => none
  | some u =>
    let blogs :=
      ((sortByCreatedDesc (db.filter (fun b => b.author == i && b.published))).take 10).map
        toSummary
    some (u, blogs)

/-! ## Store lemmas -/

/-- A fetched document's id matches the id it was fetched by. -/
theorem findBlog_id {db : List Blog} {i : Nat} {b : Blog}
    (h : findBlog db i = some b) : b.id = i := by
  have := List.find?_some h
  simpa using this

/-- After saving a document with the right id over an existing one, fetching
that id returns the saved document. -/
theorem findBlog_saveBlog {db : List Blog} {i : Nat} (nb : Blog) (hid : nb.id = i)
    {b : Blog} (h : findBlog db i = some b) :
    findBlog (saveBlog db i nb) i = some nb := by
  induction db with
  | nil => simp [findBlog] at h
  | cons hd tl ih =>
    by_cases hhd : hd.id = i
    · simp [saveBlog, findBlog, hhd, hid]
    · have h' : findBlog tl i = some b := by
        simpa [findBlog, List.find?_cons, hhd] using h
      simpa [saveBlog, findBlog, List.find?_cons, hhd] using ih h'

/-- A sample blog document used in the witnesses. -/
def wBlog : Blog :=
  { id := 1, title := "Hello", content := "World", tags := ["lean", "mern"],
    featuredImage := "", published := true, author := 7, views := 3,
    likes := [4, 9], comments := [], excerpt := "hi", createdAt := 100 }

/-- A second sample blog document (a draft by another author). -/
def wBlog2 : Blog :=
  { id := 2, title := "Draft", content := "wip", tags := [],
    featuredImage := "", published := false, author := 8, views := 0,
    likes := [], comments := [], excerpt := "", createdAt := 200 }

/-- C1: on `PUT /:id` and `DELETE /:id`, a missing blog yields 404 with the
store unchanged, whatever the requester; an existing blog whose author is not
the requester yields 403 with the store unchanged; the existence check comes
first, so a non-owner probing a missing id gets 404. -/
theorem update_delete_auth_order (db : List Blog) (requester i : Nat)
    (body : UpdateBody) (hv : validUpdate body = true) :
    (findBlog db i = none →
      updateBlog db requester i body = (.notFound, db) ∧
      deleteBlog db requester i = (.notFound, db)) ∧
    (∀ b, findBlog db i = some b → b.author ≠ requester →
      updateBlog db requester i body = (.forbidden, db) ∧
      deleteBlog db requester i = (.forbidden, db)) := by
  constructor
  · intro h
    constructor <;> simp [updateBlog, deleteBlog, hv, h]
  · intro b hb hne
    have hbne : (b.author != requester) = true := by simpa using hne
    constructor <;> simp [updateBlog, deleteBlog, hv, hb, hbne]

theorem update_delete_auth_order_witness :
    updateBlog [wBlog] 9 1 {} = (.forbidden, [wBlog]) ∧
    updateBlog [wBlog] 9 2 {} = (.notFound, [wBlog]) ∧
    deleteBlog [wBlog] 9 2 = (.notFound, [wBlog]) :=
  ⟨((update_delete_auth_order [wBlog] 9 1 {} (by decide)).2 wBlog (by decide)
      (by decide)).1,
   ((update_delete_auth_order [wBlog] 9 2 {} (by decide)).1 (by decide)).1,
   ((update_delete_auth_order [wBlog] 9 2 {} (by decide)).1 (by decide)).2⟩

/-- C9: `POST /` with `title` or `content` missing is rejected (400) with the
store unchanged; a successful creation appends the created blog to the store
(201 with the created post), and when `published` is omitted the created blog
has `published = false`. -/
theorem create_validation_and_default (db : List Blog) (requester newId now : Nat)
    (body : CreateBody) :
    (body.title = none ∨ body.content = none →
      createBlog db requester newId now body = (.validationFailed, db)) ∧
    (∀ nb db', createBlog db requester newId now body = (.created nb, db') →
      db' = db ++ [nb] ∧ (body.published = none → nb.published = false)) := by
  constructor
  · rintro (h | h) <;> simp [createBlog, validCreate, h]
  · intro nb db' h
    by_cases hvc : validCreate body = true
    · simp only [createBlog, hvc, Bool.not_true, Bool.false_eq_true, if_false] at h
      obtain ⟨hnb, hdb⟩ := Prod.mk.injEq .. ▸ h
      refine ⟨?_, ?_⟩
      · rw [← hdb, ← CreateResult.created.inj hnb]
      · intro hp
        rw [← CreateResult.created.inj hnb]
        simp [hp]
    · simp [createBlog, hvc] at h

/-- C7: a successful `PUT /:id` applies exactly the fields present in the
body (an explicitly supplied empty string or array included) and keeps every
omitted field, and never changes `author`, `views`, `likes`, `comments` or
the creation time. -/
theorem update_partial_fields (db : List Blog) (requester i : Nat)
    (body : UpdateBody) (b nb : Blog) (db' : List Blog)
    (hb : findBlog db i = some b)
    (h : updateBlog db requester i body = (.updated nb, db')) :
    (∀ t, body.title = some t → nb.title = t) ∧
    (body.title = none → nb.title = b.title) ∧
    (∀ c, body.content = some c → nb.content = c) ∧
    (body.content = none → nb.content = b.content) ∧
    (∀ ts, body.tags = some ts → nb.tags = ts) ∧
    (body.tags = none → nb.tags = b.tags) ∧
    (∀ f, body.featuredImage = some f → nb.featuredImage = f) ∧
    (body.featuredImage = none → nb.featuredImage = b.featuredImage) ∧
    (∀ p, body.published = some p → nb.published = p) ∧
    (body.published = none → nb.published = b.published) ∧
    nb.author = b.author ∧ nb.views = b.views ∧ nb.likes = b.likes ∧
    nb.comments = b.comments ∧ nb.createdAt = b.createdAt := by
  cases hvc : validUpdate body with
  | false => simp [updateBlog, hvc] at h
  | true =>
    cases hauth : b.author != requester with
    | true => simp [updateBlog, hvc, hb, hauth] at h
    | false =>
      simp only [updateBlog, hvc, Bool.not_true, Bool.false_eq_true, if_false,
        hb, hauth, Prod.mk.injEq, UpdateResult.updated.injEq] at h
      obtain ⟨h1, _⟩ := h
      subst h1
      and_intros <;>
        first
        | (intro x hx; simp [applyUpdate, hx])
        | (intro hx; simp [applyUpdate, hx])
        | simp [applyUpdate]

theorem update_partial_fields_witness :
    ∃ nb db',
      updateBlog [wBlog] 7 1 { title := some "New" } = (.updated nb, db') ∧
      nb.title = "New" ∧ nb.content = wBlog.content ∧ nb.author = wBlog.author ∧
      nb.views = wBlog.views ∧ nb.likes = wBlog.likes ∧
      nb.createdAt = wBlog.createdAt := by
  refine ⟨applyUpdate wBlog { title := some "New" },
    saveBlog [wBlog] 1 (applyUpdate wBlog { title := some "New" }), by decide, ?_⟩
  have h := update_partial_fields [wBlog] 7 1 { title := some "New" }
    wBlog (applyUpdate wBlog { title := some "New" })
    (saveBlog [wBlog] 1 (applyUpdate wBlog { title := some "New" }))
    (by decide) (by decide)
  exact ⟨h.1 "New" rfl, h.2.2.2.1 rfl, h.2.2.2.2.2.2.2.2.2.2.1,
    h.2.2.2.2.2.2.2.2.2.2.2.1, h.2.2.2.2.2.2.2.2.2.2.2.2.1,
    h.2.2.2.2.2.2.2.2.2.2.2.2.2.2⟩

/-- C3: `GET /:id` on a missing blog returns 404 and changes nothing; on an
existing blog each call increments `views` by exactly 1 and persists the new
value before returning, so two sequential calls increase `views` by exactly 1
each. -/
theorem view_increment (db : List Blog) (i : Nat) :
    (findBlog db i = none → getBlog db i = (none, db)) ∧
    (∀ b, findBlog db i = some b →
      ∃ b₁ db₁, getBlog db i = (some b₁, db₁) ∧
        b₁ = { b with views := b.views + 1 } ∧
        findBlog db₁ i = some b₁ ∧
        ∃ b₂ db₂, getBlog db₁ i = (some b₂, db₂) ∧
          b₂ = { b₁ with views := b₁.views + 1 } ∧
          b₂.views = b.views + 2 ∧
          findBlog db₂ i = some b₂) := by
  constructor
  · intro h; simp [getBlog, h]
  · intro b hb
    have hid : b.id = i := findBlog_id hb
    have h1 : findBlog (saveBlog db i { b with views := b.views + 1 }) i =
        some { b with views := b.views + 1 } :=
      findBlog_saveBlog { b with views := b.views + 1 } hid hb
    refine ⟨{ b with views := b.views + 1 }, saveBlog db i { b with views := b.views + 1 },
      by simp [getBlog, hb], rfl, h1,
      { b with views := b.views + 2 },
      saveBlog (saveBlog db i { b with views := b.views + 1 }) i
        { b with views := b.views + 2 }, ?_, rfl, rfl, ?_⟩
    · simp [getBlog, h1]
    · exact findBlog_saveBlog { b with views := b.views + 2 } hid h1

theorem view_increment_witness :
    ∃ b₁ db₁, getBlog [wBlog] 1 = (some b₁, db₁) ∧ b₁.views = 4 ∧
      ∃ b₂ db₂, getBlog db₁ 1 = (some b₂, db₂) ∧ b₂.views = 5 := by
  obtain ⟨b₁, db₁, he, hb1, -, b₂, db₂, he2, -, hv2, -⟩ :=
    (view_increment [wBlog] 1).2 wBlog (by decide)
  exact ⟨b₁, db₁, he, by rw [hb1]; rfl, b₂, db₂, he2, by rw [hv2]; rfl⟩

/-- The blog document created by the create witness. -/
def cBlogW : Blog :=
  { id := 1, title := "Hello", content := "World", tags := [],
    featuredImage := "", published := false, author := 7, views := 0,
    likes := [], comments := [], excerpt := "", createdAt := 100 }

theorem create_validation_and_default_witness :
    createBlog [] 7 1 100 { content := some "World" } = (.validationFailed, []) ∧
    createBlog [] 7 1 100 { title := some "Hello", content := some "World" } =
      (.created cBlogW, [cBlogW]) ∧
    [cBlogW] = [] ++ [cBlogW] ∧ cBlogW.published = false := by
  refine ⟨(create_validation_and_default [] 7 1 100 { content := some "World" }).1
    (Or.inl rfl), by decide, ?_, ?_⟩
  · exact ((create_validation_and_default [] 7 1 100
      { title := some "Hello", content := some "World" }).2 cBlogW [cBlogW]
      (by decide)).1
  · exact ((create_validation_and_default [] 7 1 100
      { title := some "Hello", content := some "World" }).2 cBlogW [cBlogW]
      (by decide)).2 rfl

/-- C5: every blog on any page of the public listing has `published = true`,
for every combination of search, tag, author, page and limit; a blog with
`published = false` never appears there. -/
theorem public_list_only_published (db : List Blog) (page limit : Nat)
    (search tag : String) (author? : Option Nat) :
    (∀ b ∈ (getBlogs db page limit search tag author?).blogs, b.published = true) ∧
    (∀ b, b.published = false →
      b ∉ (getBlogs db page limit search tag author?).blogs) := by
  have hmain : ∀ b ∈ (getBlogs db page limit search tag author?).blogs,
      b.published = true := by
    intro b hb
    simp only [getBlogs] at hb
    have hb1 : b ∈ sortByCreatedDesc (db.filter (publicQueryMatches search tag author?)) :=
      List.mem_of_mem_drop (List.mem_of_mem_take hb)
    have hb2 : b ∈ db.filter (publicQueryMatches search tag author?) := by
      simpa [sortByCreatedDesc] using hb1
    have hq := (List.mem_filter.mp hb2).2
    unfold publicQueryMatches at hq
    rw [Bool.and_eq_true, Bool.and_eq_true, Bool.and_eq_true] at hq
    exact hq.1.1.1
  exact ⟨hmain, fun b hpub hmem => by simp [hmain b hmem] at hpub⟩

theorem public_list_only_published_witness :
    wBlog.published = true ∧
    wBlog2 ∉ (getBlogs [wBlog, wBlog2] 1 10 "" "" none).blogs :=
  ⟨(public_list_only_published [wBlog, wBlog2] 1 10 "" "" none).1 wBlog (by decide),
   (public_list_only_published [wBlog, wBlog2] 1 10 "" "" none).2 wBlog2 (by decide)⟩

/-- C6: with a non-empty search string (and no tag/author filter), a
published blog matches the public query exactly when the search matches
case-insensitively against the title, OR the content, OR at least one tag —
the disjunction of exactly these three conditions. -/
theorem search_filter_or_three (search : String) (b : Blog)
    (hpub : b.published = true) (hs : search ≠ "") :
    publicQueryMatches search "" none b = true ↔
      (regexMatchI search b.title = true ∨ regexMatchI search b.content = true ∨
       ∃ t ∈ b.tags, regexMatchI search t = true) := by
  have hs' : (search == "") = false := by simpa using hs
  simp [publicQueryMatches, hpub, hs', List.any_eq_true, or_assoc]

theorem search_filter_or_three_witness :
    publicQueryMatches "hell" "" none wBlog = true ∧
    ("hell" : String) ≠ "" :=
  ⟨(search_filter_or_three "hell" wBlog (by decide) (by decide)).mpr
    (Or.inl (by decide)),
   by decide⟩

/-- C8: every blog on any page of `GET /my-blogs` belongs to the requester;
with the `published` parameter absent the query keeps all of the requester's
blogs, draft and published alike, and with it supplied the page is further
filtered to `published = true` exactly when the parameter is the string
`"true"` and to `published = false` otherwise. -/
theorem my_blogs_spec (db : List Blog) (requester page limit : Nat)
    (published? : Option String) :
    (∀ b ∈ (getMyBlogs db requester page limit published?).blogs,
      b.author = requester ∧ ∀ s, published? = some s → b.published = (s == "true")) ∧
    (published? = none →
      db.filter (myBlogsMatches requester published?) =
        db.filter (fun b => b.author == requester)) := by
  constructor
  · intro b hb
    simp only [getMyBlogs] at hb
    have hb1 : b ∈ sortByCreatedDesc (db.filter (myBlogsMatches requester published?)) :=
      List.mem_of_mem_drop (List.mem_of_mem_take hb)
    have hb2 : b ∈ db.filter (myBlogsMatches requester published?) := by
      simpa [sortByCreatedDesc] using hb1
    have hm := (List.mem_filter.mp hb2).2
    unfold myBlogsMatches at hm
    rw [Bool.and_eq_true] at hm
    refine ⟨by simpa using hm.1, ?_⟩
    intro s hs
    rw [hs] at hm
    simpa using hm.2
  · intro hn
    subst hn
    apply List.filter_congr
    intro b _
    simp [myBlogsMatches]

theorem my_blogs_spec_witness :
    wBlog.author = 7 ∧ wBlog.published = ("true" == "true") := by
  have h := (my_blogs_spec [wBlog, wBlog2] 7 1 10 (some "true")).1 wBlog (by decide)
  exact ⟨h.1, h.2 "true" rfl⟩

/-! ## Like-toggle lemmas -/

/-- Toggling flips the toggled user's membership in `likes`. -/
theorem toggledLikes_contains (L : List Nat) (u : Nat) :
    (toggledLikes L u).contains u = !(L.contains u) := by
  by_cases h : u ∈ L
  · simp [toggledLikes, h]
  · simp [toggledLikes, h]

/-- Removing every occurrence of `u` shortens the list by `count u`. -/
theorem length_filter_ne (L : List Nat) (u : Nat) :
    (L.filter (fun l => l != u)).length = L.length - L.count u := by
  induction L with
  | nil => rfl
  | cons a as ih =>
    have hc := List.count_le_length u as
    by_cases ha : a = u <;>
        simp [List.filter_cons, List.count_cons, ha, ih]
    omega

/-- Toggling preserves "each user id occurs at most once". -/
theorem toggledLikes_count_le (L : List Nat) (u v : Nat) (h : L.count v ≤ 1) :
    (toggledLikes L u).count v ≤ 1 := by
  by_cases hu : u ∈ L
  · calc (toggledLikes L u).count v
        = (L.filter (fun l => l != u)).count v := by simp [toggledLikes, hu]
      _ ≤ L.count v := (List.filter_sublist L).count_le v
      _ ≤ 1 := h
  · rw [show toggledLikes L u = L ++ [u] from by simp [toggledLikes, hu],
      List.count_append]
    by_cases hv : v = u
    · subst hv
      simp [List.count_eq_zero_of_not_mem hu]
    · have h1 : List.count v [u] = 0 := by
        rw [List.count_singleton]
        simp [Ne.symm hv]
      omega

/-- A double toggle by a user absent from `likes` restores the list exactly. -/
theorem toggledLikes_twice_of_not_mem (L : List Nat) (u : Nat) (hu : u ∉ L) :
    toggledLikes (toggledLikes L u) u = L := by
  have hL1 : toggledLikes L u = L ++ [u] := by simp [toggledLikes, hu]
  have hmem : u ∈ L ++ [u] := by simp
  rw [hL1, show toggledLikes (L ++ [u]) u = (L ++ [u]).filter (fun l => l != u) from by
    simp [toggledLikes, hmem]]
  rw [List.filter_append]
  have hself : L.filter (fun l => l != u) = L :=
    List.filter_eq_self.mpr fun a ha => by
      simp only [bne_iff_ne, ne_eq]
      exact fun h' => hu (h' ▸ ha)
  simp [hself]

/-- A double toggle restores the set of liking users. -/
theorem toggledLikes_twice_toFinset (L : List Nat) (u : Nat) :
    (toggledLikes (toggledLikes L u) u).toFinset = L.toFinset := by
  by_cases hu : u ∈ L
  · have hL1 : toggledLikes L u = L.filter (fun l => l != u) := by
      simp [toggledLikes, hu]
    have hnm : u ∉ L.filter (fun l => l != u) := by simp
    rw [hL1, show toggledLikes (L.filter (fun l => l != u)) u =
        L.filter (fun l => l != u) ++ [u] from by simp [toggledLikes, hnm]]
    ext x
    simp only [List.mem_toFinset, List.mem_append, List.mem_filter,
      List.mem_singleton, bne_iff_ne, ne_eq]
    constructor
    · rintro (⟨hx, -⟩ | rfl)
      · exact hx
      · exact hu
    · intro hx
      by_cases hxu : x = u
      · exact Or.inr hxu
      · exact Or.inl ⟨hx, hxu⟩
  · rw [toggledLikes_twice_of_not_mem L u hu]

/-- A double toggle restores the number of likes, provided the user occurred
at most once. -/
theorem toggledLikes_twice_length (L : List Nat) (u : Nat) (h : L.count u ≤ 1) :
    (toggledLikes (toggledLikes L u) u).length = L.length := by
  by_cases hu : u ∈ L
  · have hpos : 0 < L.count u := List.count_pos_iff.mpr hu
    have hc1 : L.count u = 1 := Nat.le_antisymm h hpos
    have hlen : 1 ≤ L.length := List.length_pos_of_mem hu
    have hL1 : toggledLikes L u = L.filter (fun l => l != u) := by
      simp [toggledLikes, hu]
    have hnm : u ∉ L.filter (fun l => l != u) := by simp
    rw [hL1, show toggledLikes (L.filter (fun l => l != u)) u =
        L.filter (fun l => l != u) ++ [u] from by simp [toggledLikes, hnm]]
    rw [List.length_append, length_filter_ne, hc1]
    simp
    omega
  · rw [toggledLikes_twice_of_not_mem L u hu]

/-- C2: the like toggle on an existing blog removes the requester from
`likes` when present and appends them when absent; the response reports
`isLiked` as the requester's membership in the new array and `likes` as its
size; the at-most-once invariant is preserved; and toggling twice by the
same user restores `likes` to its original set and size. -/
theorem like_toggle (db : List Blog) (u i : Nat) (b : Blog)
    (hb : findBlog db i = some b) (hct : b.likes.count u ≤ 1) :
    ∃ resp b₁ db₁,
      toggleLike db u i = (some resp, db₁) ∧
      findBlog db₁ i = some b₁ ∧
      b₁.likes = toggledLikes b.likes u ∧
      (u ∈ b.likes → b₁.likes = b.likes.filter (fun l => l != u)) ∧
      (u ∉ b.likes → b₁.likes = b.likes ++ [u]) ∧
      resp.isLiked = b₁.likes.contains u ∧
      resp.likes = b₁.likes.length ∧
      (∀ v, b.likes.count v ≤ 1 → b₁.likes.count v ≤ 1) ∧
      ∃ resp₂ b₂ db₂,
        toggleLike db₁ u i = (some resp₂, db₂) ∧
        findBlog db₂ i = some b₂ ∧
        b₂.likes.toFinset = b.likes.toFinset ∧
        b₂.likes.length = b.likes.length := by
  have hid : b.id = i := findBlog_id hb
  have ht1 : toggleLike db u i =
      (some { likes := (toggledLikes b.likes u).length, isLiked := !(b.likes.contains u) },
       saveBlog db i { b with likes := toggledLikes b.likes u }) := by
    simp [toggleLike, hb]
  have hs1 : findBlog (saveBlog db i { b with likes := toggledLikes b.likes u }) i =
      some { b with likes := toggledLikes b.likes u } :=
    findBlog_saveBlog _ hid hb
  refine ⟨_, _, _, ht1, hs1, rfl, ?_, ?_, ?_, rfl, ?_, ?_⟩
  · intro hm; simp [toggledLikes, hm]
  · intro hm; simp [toggledLikes, hm]
  · exact (toggledLikes_contains b.likes u).symm
  · intro v hv; exact toggledLikes_count_le b.likes u v hv
  · have ht2 : toggleLike (saveBlog db i { b with likes := toggledLikes b.likes u }) u i =
        (some { likes := (toggledLikes (toggledLikes b.likes u) u).length,
                isLiked := !((toggledLikes b.likes u).contains u) },
         saveBlog (saveBlog db i { b with likes := toggledLikes b.likes u }) i
           { b with likes := toggledLikes (toggledLikes b.likes u) u }) := by
      simp [toggleLike, hs1]
    have hs2 : findBlog (saveBlog (saveBlog db i { b with likes := toggledLikes b.likes u }) i
        { b with likes := toggledLikes (toggledLikes b.likes u) u }) i =
        some { b with likes := toggledLikes (toggledLikes b.likes u) u } :=
      findBlog_saveBlog _ hid hs1
    exact ⟨_, _, _, ht2, hs2, toggledLikes_twice_toFinset b.likes u,
      toggledLikes_twice_length b.likes u hct⟩

theorem like_toggle_witness :
    ∃ resp b₁ db₁,
      toggleLike [wBlog] 5 1 = (some resp, db₁) ∧
      findBlog db₁ 1 = some b₁ ∧
      resp.isLiked = b₁.likes.contains 5 ∧
      ∃ resp₂ b₂ db₂,
        toggleLike db₁ 5 1 = (some resp₂, db₂) ∧
        findBlog db₂ 1 = some b₂ ∧
        b₂.likes.toFinset = wBlog.likes.toFinset ∧
        b₂.likes.length = wBlog.likes.length := by
  obtain ⟨resp, b₁, db₁, h1, h2, -, -, -, h6, -, -, resp₂, b₂, db₂, h10, h11, h12, h13⟩ :=
    like_toggle [wBlog] 5 1 wBlog (by decide) (by decide)
  exact ⟨resp, b₁, db₁, h1, h2, h6, resp₂, b₂, db₂, h10, h11, h12, h13⟩

/-! ## Pagination lemmas -/

/-- The pagination object reports the separate total, the ceiling page count
(`totalPages` is the least `c` with `total ≤ limit * c`), and the
`hasNext`/`hasPrev` flags. -/
theorem mkPagination_spec (page limit total : Nat) (hl : 1 ≤ limit) :
    (mkPagination page limit total).totalBlogs = total ∧
    total ≤ limit * (mkPagination page limit total).totalPages ∧
    (∀ c, total ≤ limit * c → (mkPagination page limit total).totalPages ≤ c) ∧
    (mkPagination page limit total).hasNext =
      decide (page < (mkPagination page limit total).totalPages) ∧
    (mkPagination page limit total).hasPrev = decide (1 < page) := by
  have hl' : 0 < limit := hl
  refine ⟨rfl, ?_, ?_, rfl, rfl⟩
  · exact (ceilDiv_le_iff_le_mul hl').mp le_rfl
  · intro c hc
    exact (ceilDiv_le_iff_le_mul hl').mpr hc

/-- C4: both list endpoints return the page obtained by skipping
`(page-1)*limit` sorted matching documents and taking at most `limit`; the
reported total is a count over the identical filter (not the page size);
`totalPages` is the ceiling of `total / limit` (the least `c` with
`total ≤ limit * c`); `hasNext = (page < totalPages)`; `hasPrev = (page > 1)`. -/
theorem pagination_spec (db : List Blog) (page limit requester : Nat)
    (search tag : String) (author? : Option Nat) (published? : Option String)
    (_hp : 1 ≤ page) (hl : 1 ≤ limit) :
    ((getBlogs db page limit search tag author?).blogs.length ≤ limit ∧
     (getBlogs db page limit search tag author?).blogs =
       ((sortByCreatedDesc (db.filter (publicQueryMatches search tag author?))).drop
         ((page - 1) * limit)).take limit ∧
     (getBlogs db page limit search tag author?).pagination.totalBlogs =
       (db.filter (publicQueryMatches search tag author?)).length ∧
     (getBlogs db page limit search tag author?).pagination.totalBlogs ≤
       limit * (getBlogs db page limit search tag author?).pagination.totalPages ∧
     (∀ c, (getBlogs db page limit search tag author?).pagination.totalBlogs ≤ limit * c →
       (getBlogs db page limit search tag author?).pagination.totalPages ≤ c) ∧
     (getBlogs db page limit search tag author?).pagination.hasNext =
       decide (page < (getBlogs db page limit search tag author?).pagination.totalPages) ∧
     (getBlogs db page limit search tag author?).pagination.hasPrev =
       decide (1 < page)) ∧
    ((getMyBlogs db requester page limit published?).blogs.length ≤ limit ∧
     (getMyBlogs db requester page limit published?).blogs =
       ((sortByCreatedDesc (db.filter (myBlogsMatches requester published?))).drop
         ((page - 1) * limit)).take limit ∧
     (getMyBlogs db requester page limit published?).pagination.totalBlogs =
       (db.filter (myBlogsMatches requester published?)).length ∧
     (getMyBlogs db requester page limit published?).pagination.totalBlogs ≤
       limit * (getMyBlogs db requester page limit published?).pagination.totalPages ∧
     (∀ c, (getMyBlogs db requester page limit published?).pagination.totalBlogs ≤
         limit * c →
       (getMyBlogs db requester page limit published?).pagination.totalPages ≤ c) ∧
     (getMyBlogs db requester page limit published?).pagination.hasNext =
       decide (page <
         (getMyBlogs db requester page limit published?).pagination.totalPages) ∧
     (getMyBlogs db requester page limit published?).pagination.hasPrev =
       decide (1 < page)) := by
  obtain ⟨h1, h2, h3, h4, h5⟩ :=
    mkPagination_spec page limit (db.filter (publicQueryMatches search tag author?)).length hl
  obtain ⟨g1, g2, g3, g4, g5⟩ :=
    mkPagination_spec page limit (db.filter (myBlogsMatches requester published?)).length hl
  exact ⟨⟨List.length_take_le _ _, rfl, h1, h2, h3, h4, h5⟩,
    ⟨List.length_take_le _ _, rfl, g1, g2, g3, g4, g5⟩⟩

theorem pagination_spec_witness :
    (getBlogs [wBlog, wBlog2] 1 10 "" "" none).blogs.length ≤ 10 ∧
    (getMyBlogs [wBlog, wBlog2] 7 1 10 none).blogs.length ≤ 10 :=
  ⟨(pagination_spec [wBlog, wBlog2] 1 10 7 "" "" none none (by decide) (by decide)).1.1,
   (pagination_spec [wBlog, wBlog2] 1 10 7 "" "" none none (by decide) (by decide)).2.1⟩

/-- A sample user document used in the profile witness. -/
def wUser : User := { id := 7, username := "ajay" }

/-- C10: for an existing user, the public profile returns only that user's
published blogs, at most 10 of them, sorted descending by creation time, each
projected to a summary that does not depend on the `content` field. -/
theorem profile_published_summaries (users : List User) (db : List Blog) (i : Nat)
    (u : User) (bs : List BlogSummary)
    (h : getProfile users db i = some (u, bs)) :
    bs.length ≤ 10 ∧
    bs = ((sortByCreatedDesc (db.filter (fun b => b.author == i && b.published))).take
      10).map toSummary ∧
    (∀ s ∈ bs, ∃ b, b ∈ db ∧ b.author = i ∧ b.published = true ∧ toSummary b = s) ∧
    List.Pairwise (fun s₁ s₂ : BlogSummary => s₂.createdAt ≤ s₁.createdAt) bs ∧
    (∀ b c, toSummary { b with content := c } = toSummary b) := by
  cases hu : users.find? (fun v => v.id == i) with
  | none => simp [getProfile, hu] at h
  | some u' =>
    simp only [getProfile, hu, Option.some.injEq, Prod.mk.injEq] at h
    obtain ⟨-, hbs⟩ := h
    subst hbs
    refine ⟨?_, rfl, ?_, ?_, fun b c => rfl⟩
    · rw [List.length_map]
      exact List.length_take_le _ _
    · intro s hs
      obtain ⟨b, hbmem, hbs⟩ := List.mem_map.mp hs
      have hb1 : b ∈ sortByCreatedDesc (db.filter (fun b => b.author == i && b.published)) :=
        List.mem_of_mem_take hbmem
      have hb2 : b ∈ db.filter (fun b => b.author == i && b.published) := by
        simpa [sortByCreatedDesc] using hb1
      obtain ⟨hmem, hq⟩ := List.mem_filter.mp hb2
      rw [Bool.and_eq_true] at hq
      exact ⟨b, hmem, by simpa using hq.1, hq.2, hbs⟩
    · have hsorted : List.Pairwise byCreatedDesc
          (sortByCreatedDesc (db.filter (fun b => b.author == i && b.published))) :=
        List.sorted_insertionSort byCreatedDesc _
      have htake : List.Pairwise byCreatedDesc
          ((sortByCreatedDesc (db.filter (fun b => b.author == i && b.published))).take
            10) :=
        hsorted.sublist (List.take_sublist _ _)
      exact htake.map toSummary fun a b hab => hab

theorem profile_published_summaries_witness :
    ∃ u bs, getProfile [wUser] [wBlog, wBlog2] 7 = some (u, bs) ∧
      bs.length ≤ 10 ∧
      ∀ s ∈ bs, ∃ b, b ∈ [wBlog, wBlog2] ∧ b.author = 7 ∧ b.published = true ∧
        toSummary b = s := by
  refine ⟨wUser, [toSummary wBlog], by decide, ?_, ?_⟩
  · exact (profile_published_summaries [wUser] [wBlog, wBlog2] 7 wUser
      [toSummary wBlog] (by decide)).1
  · exact (profile_published_summaries [wUser] [wBlog, wBlog2] 7 wUser
      [toSummary wBlog] (by decide)).2.2.1
